import Mathlib

/-!
Verification development for the autoresearcher literature-review pipeline
(`generate_lit_review.py`, `combine_answers.py`, `get_manual_answers.py`).
Strings are modelled as lists of characters; external collaborators
(the completion service, the citation-metadata HTTP service and the
tokenizer) are oracle parameters.
-/

abbrev Str := List Char

/-! Python string primitives used by the source: slicing comparison,
`str.rfind`, and substring containment. -/

/-- Python slice test: `s[i:i+len(pat)] == pat`. -/
def occAt (s pat : Str) (i : Nat) : Bool :=
  (s.drop i).take pat.length == pat

/-- Python `s.rfind(pat)` searched downward from position `n`. -/
def rfindAux (s pat : Str) : Nat → Option Nat
  | 0 => if occAt s pat 0 then some 0 else none
  | n + 1 => if occAt s pat (n + 1) then some (n + 1) else rfindAux s pat n

/-- Python `s.rfind(pat)`: the greatest index at which `pat` occurs,
`none` standing for the -1 of the source. -/
def rfind (s pat : Str) : Option Nat :=
  rfindAux s pat s.length

/-- Every index at which `pat` occurs in `s`, in increasing order.
Specification-side notion used to state the claims. -/
def occs (s pat : Str) : List Nat :=
  (List.range (s.length + 1)).filter (fun i => occAt s pat i)

/-- Specification-side: `s` contains `pat` as a substring. -/
def containsSub (s pat : Str) : Bool :=
  (List.range (s.length + 1)).any (fun i => occAt s pat i)

/-- Specification-side: the index of the last occurrence of `pat` in `s`. -/
def lastOcc (s pat : Str) : Option Nat :=
  (occs s pat).getLast?

/-- Specification-side: how many times `pat` occurs in `s`. -/
def countOcc (s pat : Str) : Nat :=
  (occs s pat).length

/-- Specification-side: the text of `s` strictly before the last
occurrence of `pat` (all of `s` when `pat` does not occur). -/
def leadingOfLast (s pat : Str) : Str :=
  match rfind s pat with
  | some j => s.take j
  | none => s

/-- Specification-side: `s` ends with `pat`. -/
def endsWith (s pat : Str) : Bool :=
  decide (pat.length ≤ s.length) && (s.drop (s.length - pat.length) == pat)

/-! Data model of `generate_lit_review.py`. -/

/-- Exceptions the modelled Python code can raise. -/
inductive PyError where
  | attributeError
  | keyError
  | indexError
  | typeError
deriving DecidableEq

/-- Paper record produced by the external paper search: `title` and
`abstract` are optional (`dict.get`), `url` is present on every record
this pipeline consumes, and `doi` models the presence of both the
`externalIds` key and its `DOI` sub-key. -/
structure Paper where
  title : Option Str
  abstract : Option Str
  url : Str
  doi : Option Str

/-- Element of the heterogeneous list handed to the extraction loop:
either a paper record or a plain string (a manually supplied answer). -/
inductive Item where
  | paper (p : Paper)
  | str (s : Str)

/-- JSON value, for the body of the citation-metadata response. -/
inductive JVal where
  | jstr (s : Str)
  | jnum (n : Int)
  | jarr (xs : List JVal)
  | jobj (fields : List (Str × JVal))

/-- HTTP response: raw body text, and its JSON parse when the body is
valid JSON (`none` models `response.json()` raising `ValueError`). -/
structure HttpResponse where
  text : Str
  json : Option JVal

/-- Python `data[k]` for a string key: dictionary lookup (KeyError when
the key is absent) and TypeError on non-dictionary values. -/
def jGetKey : JVal → Str → Except PyError JVal
  | .jobj fields, k =>
    match fields.find? (fun kv => kv.1 == k) with
    | some kv => .ok kv.2
    | none => .error .keyError
  | .jstr _, _ => .error .typeError
  | .jnum _, _ => .error .typeError
  | .jarr _, _ => .error .typeError

/-- Python `data[i]` for an integer index: list indexing (IndexError when
out of range), string indexing, KeyError on dictionaries, TypeError on
numbers. -/
def jGetIdx : JVal → Nat → Except PyError JVal
  | .jarr xs, i =>
    match xs.get? i with
    | some v => .ok v
    | none => .error .indexError
  | .jstr s, i =>
    match s.get? i with
    | some c => .ok (.jstr [c])
    | none => .error .indexError
  | .jobj _, _ => .error .keyError
  | .jnum _, _ => .error .typeError

/-- URL built by `get_citation_by_doi`. -/
def citeas_url (doi email : Str) : Str :=
  ("https://api.citeas.org/product/").toList ++ doi ++ ("?email=").toList ++ email

/-- Model of `get_citation_by_doi` (generate_lit_review.py lines 18-39):
issues the lookup through the `http` oracle, tries `response.json()`
(only a `ValueError` there is caught, returning `response.text`), then
evaluates `data["citations"][0]["citation"]`, whose own lookup errors
propagate. -/
def get_citation_by_doi (http : Str → HttpResponse) (email doi : Str) :
    Except PyError JVal :=
  let response := http (citeas_url doi email)
  match response.json with
  | none => .ok (.jstr response.text)
  | some data => do
    let cits ← jGetKey data ("citations").toList
    let first ← jGetIdx cits 0
    jGetKey first ("citation").toList

/-! Answer extraction (generate_lit_review.py lines 68-128). -/

/-- Sentinel of the extraction step. -/
def default_answer : Str := ("No answer found.").toList

/-- Separator inserted between an extracted answer and its citation. -/
def source_sep : Str := (" SOURCE: ").toList

/-- Marker searched for by the citation assembler. -/
def source_marker : Str := ("SOURCE: ").toList

/-- Prompt sent per paper, `extract_answer_prompt.format(...)` with the
two fields substituted. -/
def extract_answer_prompt (research_question abstract : Str) : Str :=
  ("\n    `reset`\n    `no quotes`\n    `no explanations`\n    `no prompt`\n    `no self-reference`\n    `no apologies`\n    `no filler`\n    `just answer`\n\n    I will give you the abstract of an academic paper. Extract the answer to this research question: ").toList
    ++ research_question
    ++ (" from the abstract.\n\n    If the answer is not in the abstract, then you are only allowed to respond with \x27No answer found\x27.\n\n    This is the abstract: ").toList
    ++ abstract
    ++ ("\n    ").toList

/-- Source line 121: `f"{answer} SOURCE: {citation}"`. -/
def answer_with_citation (answer citation : Str) : Str :=
  answer ++ source_sep ++ citation

/-- Citation chosen for a paper: `get_citation_by_doi(...)` when a DOI is
present, else `paper["url"]`. The `get_citation` oracle stands for
`get_citation_by_doi` applied to the ambient HTTP service. -/
def paper_citation (get_citation : Str → Except PyError Str) (p : Paper) :
    Except PyError Str :=
  match p.doi with
  | some d => get_citation d
  | none => .ok p.url

/-- Loop body of `extract_answers_from_papers`: walks the paper list in
order. A plain string element fails at `paper.get("abstract", "")` with
an AttributeError; for a paper record the citation is resolved, the
completion service consulted, and the answer kept unless it equals the
sentinel. -/
def extract_answers_loop (openai_call : Str → Int → Str)
    (get_citation : Str → Except PyError Str)
    (research_question : Str) (max_tokens : Int) :
    List Item → Except PyError (List Str)
  | [] => .ok []
  | .str _ :: _ => .error .attributeError
  | .paper p :: rest =>
    match paper_citation get_citation p with
    | .error e => .error e
    | .ok citation =>
      let answer :=
        openai_call (extract_answer_prompt research_question (p.abstract.getD [])) max_tokens
      match extract_answers_loop openai_call get_citation research_question max_tokens rest with
      | .error e => .error e
      | .ok restAnswers =>
        if answer = default_answer then .ok restAnswers
        else .ok (answer_with_citation answer citation :: restAnswers)

/-- Model of `extract_answers_from_papers` (lines 68-128). The
`use_gpt4` and `temperature` knobs are absorbed into the completion
oracle; `max_tokens` is the integer actually passed to it. -/
def extract_answers_from_papers (openai_call : Str → Int → Str)
    (get_citation : Str → Except PyError Str)
    (papers : List Item) (research_question : Str) (max_tokens : Int) :
    Except PyError (List Str) :=
  extract_answers_loop openai_call get_citation research_question max_tokens papers

/-- Model of `extract_citations` (lines 131-150): for each answer take
`answer.rfind("SOURCE: ")` and, when found, everything after the marker. -/
def extract_citations (answers : List Str) : List Str :=
  answers.filterMap (fun answer =>
    match rfind answer source_marker with
    | some citation_start => some (answer.drop (citation_start + source_marker.length))
    | none => none)

/-! Review synthesis (combine_answers.py). -/

/-- Prompt of `combine_answers`, `literature_review_prompt.format(...)`
with the two fields substituted (the source literal opens with a
quote character: it is a `""""..."""` string). -/
def literature_review_prompt (research_question answer_list : Str) : Str :=
  ("\"\n`reset`\n`no quotes`\n`no explanations`\n`no prompt`\n`no self-reference`\n`no apologies`\n`no filler`\n`just answer`\n\nI will give you a list of research findings and a research question.\n\nSynthesize the list of research findings to generate a scientific literature review. Also, identify knowledge gaps and future research directions.\n\nMake sure to always reference every research finding you use with in-text citations in APA format using the source provided. \n\nOnly use the research findings I provide you with to create your literature review. Only give me the output and nothing else.\n\nNow, using the concepts above, create a literature review for this research question \x27").toList
    ++ research_question
    ++ ("\x27 using the following research findings:\n\n").toList
    ++ answer_list
    ++ ("\n").toList

/-- Source line 57: `remaining_tokens = 4080 - input_tokens`. -/
def remaining_tokens (input_tokens : Nat) : Int :=
  4080 - (input_tokens : Int)

/-- Source line 58: `max_tokens = max(remaining_tokens, 0)`. -/
def combine_max_tokens (input_tokens : Nat) : Int :=
  max (remaining_tokens input_tokens) 0

/-- Model of `combine_answers` (combine_answers.py lines 29-64):
`count_tokens` is the tiktoken oracle, `openai_call` receives the
rendered prompt and the clamped token budget. -/
def combine_answers (openai_call : Str → Int → Str) (count_tokens : Str → Nat)
    (answers : List Str) (research_question : Str) : Str :=
  let answer_list := List.intercalate (("\n\n").toList) answers
  let prompt := literature_review_prompt research_question answer_list
  openai_call prompt (combine_max_tokens (count_tokens prompt))

/-! Pipeline orchestrator (generate_lit_review.py lines 42-65). -/

/-- Numbered reference list: `"\n".join(f"{idx + 1}. {citation}" ...)`. -/
def references_list (citations : List Str) : Str :=
  List.intercalate (("\n").toList)
    (citations.enum.map (fun ic => (Nat.repr (ic.1 + 1)).toList ++ (". ").toList ++ ic.2))

/-- Model of `literature_review`: concatenates the manual answers onto
the papers, extracts, synthesizes, assembles citations, and appends the
reference section and the `resultEnd` marker. -/
def literature_review (openai_call : Str → Int → Str)
    (get_citation : Str → Except PyError Str) (count_tokens : Str → Nat)
    (research_question : Str) (top_papers manualAnswers : List Item) :
    Except PyError Str :=
  let all_papers := top_papers ++ manualAnswers
  match extract_answers_from_papers openai_call get_citation all_papers research_question 150 with
  | .error e => .error e
  | .ok answers =>
    let lr := combine_answers openai_call count_tokens answers research_question
    let citations := extract_citations answers
    .ok (lr ++ ("\n\nReferences:\n").toList ++ references_list citations ++ ("resultEnd").toList)

/-- Specification-side view of one extraction step, used to state order
preservation: the answer a given item contributes, if any. -/
def emitted_answer (openai_call : Str → Int → Str)
    (get_citation : Str → Except PyError Str)
    (research_question : Str) (max_tokens : Int) : Item → Option Str
  | .str _ => none
  | .paper p =>
    match paper_citation get_citation p with
    | .error _ => none
    | .ok citation =>
      let answer :=
        openai_call (extract_answer_prompt research_question (p.abstract.getD [])) max_tokens
      if answer = default_answer then none
      else some (answer_with_citation answer citation)

/-! Pointwise access lemmas for list slices. -/

lemma getD_drop_add (s : Str) (i k : Nat) (c : Char) :
    (s.drop i).getD k c = s.getD (i + k) c := by
  induction i generalizing s with
  | zero => simp
  | succ n ih =>
    cases s with
    | nil => simp
    | cons x xs =>
      simp [Nat.succ_add, ih xs]

lemma getD_take_lt (s : Str) (n k : Nat) (c : Char) (h : k < n) :
    (s.take n).getD k c = s.getD k c := by
  rcases Nat.lt_or_ge k s.length with hk | hk
  · have hk2 : k < (s.take n).length := by
      simp [List.length_take]
      omega
    rw [List.getD_eq_getElem _ _ hk2, List.getD_eq_getElem _ _ hk]
    exact List.getElem_take s
  · rw [List.getD_eq_default _ _ hk, List.getD_eq_default]
    simp [List.length_take]
    omega

lemma getD_append_lt (xs ys : Str) (k : Nat) (c : Char) (h : k < xs.length) :
    (xs ++ ys).getD k c = xs.getD k c := by
  have h2 : k < (xs ++ ys).length := by
    simp
    omega
  rw [List.getD_eq_getElem _ _ h2, List.getD_eq_getElem _ _ h]
  exact List.getElem_append_left h

lemma getD_append_add (xs ys : Str) (k : Nat) (c : Char) :
    (xs ++ ys).getD (xs.length + k) c = ys.getD k c := by
  rcases Nat.lt_or_ge k ys.length with hk | hk
  · have h2 : xs.length + k < (xs ++ ys).length := by
      simp
      omega
    rw [List.getD_eq_getElem _ _ h2, List.getD_eq_getElem _ _ hk]
    rw [List.getElem_append_right (by omega)]
    congr 1
    omega
  · rw [List.getD_eq_default _ _ (by simp; omega), List.getD_eq_default _ _ (by omega)]

/-! Characterization of occurrences. -/

lemma occAt_iff {s pat : Str} {i : Nat} :
    occAt s pat i = true ↔ (s.drop i).take pat.length = pat := by
  simp [occAt]

lemma occAt_le {s pat : Str} {i : Nat} (hp : pat ≠ []) (h : occAt s pat i = true) :
    i + pat.length ≤ s.length := by
  rw [occAt_iff] at h
  have hlen := congrArg List.length h
  simp [List.length_take, List.length_drop] at hlen
  have hpos : 0 < pat.length := List.length_pos.mpr hp
  omega

lemma occAt_getD {s pat : Str} {i : Nat} (h : occAt s pat i = true)
    (k : Nat) (hk : k < pat.length) (c : Char) :
    s.getD (i + k) c = pat.getD k c := by
  rw [occAt_iff] at h
  calc s.getD (i + k) c = (s.drop i).getD k c := (getD_drop_add s i k c).symm
    _ = ((s.drop i).take pat.length).getD k c := (getD_take_lt _ _ _ _ hk).symm
    _ = pat.getD k c := by rw [h]

lemma occAt_of_getD {s pat : Str} {i : Nat} (c : Char)
    (hlen : i + pat.length ≤ s.length)
    (h : ∀ k, k < pat.length → s.getD (i + k) c = pat.getD k c) :
    occAt s pat i = true := by
  rw [occAt_iff]
  apply List.ext_getElem
  · simp [List.length_take, List.length_drop]
    omega
  · intro n h1 h2
    have hn : n < pat.length := h2
    have hs : i + n < s.length := by omega
    have hd : n < (s.drop i).length := by
      simp [List.length_drop]
      omega
    have hgd := h n hn
    rw [List.getD_eq_getElem _ _ hs, List.getD_eq_getElem _ _ hn] at hgd
    calc ((s.drop i).take pat.length)[n] = (s.drop i)[n] := List.getElem_take _
      _ = s[i + n] := List.getElem_drop _
      _ = pat[n] := hgd

/-! Behavior of rfind: it returns the greatest occurrence index. -/

lemma rfindAux_eq (s pat : Str) (n : Nat) :
    rfindAux s pat n = ((List.range (n + 1)).filter (fun i => occAt s pat i)).getLast? := by
  induction n with
  | zero =>
    by_cases h : occAt s pat 0 <;> simp [rfindAux, List.range_succ, h]
  | succ n ih =>
    by_cases h : occAt s pat (n + 1)
    · simp [rfindAux, h, List.range_succ, List.filter_append, List.getLast?_concat]
    · simp only [rfindAux, h, if_false, ih, List.range_succ, List.filter_append]
      simp [h]

lemma rfind_eq_lastOcc (s pat : Str) : rfind s pat = lastOcc s pat := by
  rw [rfind, lastOcc, occs, rfindAux_eq]

lemma rfindAux_le {s pat : Str} {n j : Nat} (h : rfindAux s pat n = some j) :
    j ≤ n := by
  induction n with
  | zero =>
    by_cases h0 : occAt s pat 0 <;> simp [rfindAux, h0] at h
    omega
  | succ n ih =>
    by_cases h0 : occAt s pat (n + 1)
    · simp [rfindAux, h0] at h
      omega
    · simp only [rfindAux, h0, if_false] at h
      exact Nat.le_succ_of_le (ih h)

lemma rfindAux_occ {s pat : Str} {n j : Nat} (h : rfindAux s pat n = some j) :
    occAt s pat j = true := by
  induction n with
  | zero =>
    by_cases h0 : occAt s pat 0 <;> simp [rfindAux, h0] at h
    rwa [← h]
  | succ n ih =>
    by_cases h0 : occAt s pat (n + 1)
    · simp [rfindAux, h0] at h
      rwa [← h]
    · simp only [rfindAux, h0, if_false] at h
      exact ih h

lemma rfindAux_ge {s pat : Str} {n k : Nat} (hk : occAt s pat k = true) (hkn : k ≤ n) :
    ∃ j, rfindAux s pat n = some j ∧ k ≤ j := by
  induction n with
  | zero =>
    have hk0 : k = 0 := Nat.le_zero.mp hkn
    subst hk0
    exact ⟨0, by simp [rfindAux, hk], Nat.le_refl 0⟩
  | succ n ih =>
    by_cases h0 : occAt s pat (n + 1)
    · exact ⟨n + 1, by simp [rfindAux, h0], hkn⟩
    · have hklt : k ≤ n := by
        rcases Nat.lt_or_ge k (n + 1) with h | h
        · omega
        · have : k = n + 1 := by omega
          subst this
          exact absurd hk (by simp [h0])
      obtain ⟨j, hj, hkj⟩ := ih hklt
      exact ⟨j, by simp only [rfindAux, h0, if_false]; exact hj, hkj⟩

lemma rfind_spec {s pat : Str} (hp : pat ≠ []) {k : Nat} (hk : occAt s pat k = true) :
    ∃ j, rfind s pat = some j ∧ k ≤ j ∧ j ≤ s.length ∧ occAt s pat j = true := by
  have hkle : k ≤ s.length := by
    have := occAt_le hp hk
    have hpos : 0 < pat.length := List.length_pos.mpr hp
    omega
  obtain ⟨j, hj, hkj⟩ := rfindAux_ge hk hkle
  exact ⟨j, hj, hkj, rfindAux_le hj, rfindAux_occ hj⟩

lemma rfind_max {s pat : Str} {j k : Nat} (h : rfind s pat = some j)
    (hk : occAt s pat k = true) (hp : pat ≠ []) : k ≤ j := by
  obtain ⟨j2, hj2, hkj2, _, _⟩ := rfind_spec hp hk
  rw [h] at hj2
  injection hj2 with he
  omega

/-! Structure of the separator and position analysis of occurrences in
an assembled answer `ans ++ " SOURCE: " ++ cit`. -/

lemma sep_cons : source_sep = ' ' :: source_marker := by decide

lemma sep_length : source_sep.length = 9 := by decide

lemma marker_length : source_marker.length = 8 := by decide

lemma sep_ne_nil : source_sep ≠ [] := by decide

lemma marker_ne_nil : source_marker ≠ [] := by decide

lemma eq_of_getD {xs ys : Str} (hlen : xs.length = ys.length)
    (h : ∀ k, k < xs.length → xs.getD k 'Z' = ys.getD k 'Z') : xs = ys := by
  apply List.ext_getElem hlen
  intro n h1 h2
  have := h n h1
  rwa [List.getD_eq_getElem _ _ h1, List.getD_eq_getElem _ _ h2] at this

lemma containsSub_of_occAt {s pat : Str} (i : Nat) (hp : pat ≠ [])
    (h : occAt s pat i = true) : containsSub s pat = true := by
  have hle : i + pat.length ≤ s.length := occAt_le hp h
  have hpos : 0 < pat.length := List.length_pos.mpr hp
  rw [containsSub, List.any_eq_true]
  exact ⟨i, List.mem_range.mpr (by omega), h⟩

lemma sep_take8 : ∀ k, k < 8 →
    source_sep.getD k 'Z' = ((" SOURCE:").toList).getD k 'Z' := by
  decide

lemma containsSub_marker_of_occAt_sep {s : Str} (i : Nat)
    (h : occAt s source_sep i = true) : containsSub s source_marker = true := by
  have hle : i + 9 ≤ s.length := by
    have h2 := occAt_le sep_ne_nil h
    rw [sep_length] at h2
    omega
  apply containsSub_of_occAt (i + 1) marker_ne_nil
  apply occAt_of_getD 'Z'
  · rw [marker_length]
    omega
  · intro k hk
    rw [marker_length] at hk
    have h1 : s.getD (i + (k + 1)) 'Z' = source_sep.getD (k + 1) 'Z' :=
      occAt_getD h (k + 1) (by rw [sep_length]; omega) 'Z'
    rw [show i + 1 + k = i + (k + 1) by omega, h1, sep_cons, List.getD_cons_succ]

lemma occAt_sep_at_len (ans cit : Str) :
    occAt (ans ++ source_sep ++ cit) source_sep ans.length = true := by
  apply occAt_of_getD 'Z'
  · simp [sep_length]
  · intro k hk
    rw [sep_length] at hk
    rw [List.append_assoc, getD_append_add,
      getD_append_lt _ _ _ _ (by rw [sep_length]; omega)]

lemma occAt_marker_at_len_succ (ans cit : Str) :
    occAt (ans ++ source_sep ++ cit) source_marker (ans.length + 1) = true := by
  apply occAt_of_getD 'Z'
  · simp [marker_length, sep_length]
    omega
  · intro k hk
    rw [marker_length] at hk
    rw [show ans.length + 1 + k = ans.length + (k + 1) by omega, List.append_assoc,
      getD_append_add, getD_append_lt _ _ _ _ (by rw [sep_length]; omega), sep_cons,
      List.getD_cons_succ]

lemma sep_left_overlap : ∀ d, d < 8 → 1 ≤ d →
    ∃ k, k < 9 ∧ d ≤ k ∧ source_sep.getD k 'Z' ≠ source_sep.getD (k - d) 'Z' := by
  decide

lemma sep_right_overlap : ∀ d, d < 8 → 1 ≤ d →
    ∃ k, k < 9 - d ∧ source_sep.getD k 'Z' ≠ source_sep.getD (d + k) 'Z' := by
  decide

/-- Every occurrence of the separator in an assembled answer is either
the inserted one, or forces the marker into the answer text, a dangling
separator-prefix at the end of the answer text, or the marker inside
the citation. -/
lemma occAt_sep_cases (ans cit : Str) (i : Nat)
    (h : occAt (ans ++ source_sep ++ cit) source_sep i = true) :
    i = ans.length
    ∨ containsSub ans source_marker = true
    ∨ endsWith ans ((" SOURCE:").toList) = true
    ∨ containsSub cit source_marker = true := by
  have hlen : (ans ++ source_sep ++ cit).length = ans.length + 9 + cit.length := by
    simp [sep_length]
    omega
  have hbound : i + 9 ≤ ans.length + 9 + cit.length := by
    have := occAt_le sep_ne_nil h
    rw [sep_length] at this
    omega
  have hpt : ∀ k, k < 9 → (ans ++ source_sep ++ cit).getD (i + k) 'Z' = source_sep.getD k 'Z' := by
    intro k hk
    exact occAt_getD h k (by rw [sep_length]; omega) 'Z'
  have haM : ∀ m, m < 9 →
      (ans ++ source_sep ++ cit).getD (ans.length + m) 'Z' = source_sep.getD m 'Z' := by
    intro m hm
    rw [List.append_assoc, getD_append_add,
      getD_append_lt _ _ _ _ (by rw [sep_length]; omega)]
  have haR : ∀ m,
      (ans ++ source_sep ++ cit).getD (ans.length + 9 + m) 'Z' = cit.getD m 'Z' := by
    intro m
    rw [show ans.length + 9 + m = ans.length + (9 + m) by omega, List.append_assoc,
      getD_append_add, show (9 : Nat) + m = source_sep.length + m by rw [sep_length],
      getD_append_add]
  rcases Nat.lt_or_ge i ans.length with hiL | hiL
  · -- the occurrence starts inside the answer text
    rcases le_or_lt (i + 9) ans.length with hin | hover
    · -- fully inside the answer text
      right; left
      apply containsSub_marker_of_occAt_sep i
      apply occAt_of_getD 'Z'
      · rw [sep_length]; omega
      · intro k hk
        rw [sep_length] at hk
        rw [← getD_append_lt ans (source_sep ++ cit) _ 'Z' (by omega), ← List.append_assoc]
        exact hpt k hk
    · -- straddles the boundary between the answer text and the separator
      rcases Nat.lt_or_ge (ans.length - i) 8 with hd | hd
      · -- shift between 1 and 7: impossible by separator self-overlap
        exfalso
        obtain ⟨k, hk9, hdk, hne⟩ := sep_left_overlap (ans.length - i) hd (by omega)
        apply hne
        rw [← hpt k hk9]
        have : i + k = ans.length + (k - (ans.length - i)) := by omega
        rw [this, haM _ (by omega)]
      · -- shift exactly 8: the answer text ends with " SOURCE:"
        right; right; left
        have hL8 : ans.length = i + 8 := by omega
        have hdropeq : ans.drop (ans.length - 8) = (" SOURCE:").toList := by
          apply eq_of_getD
          · simp
            omega
          · intro k hk
            have hklen : k < 8 := by
              simp at hk
              omega
            rw [getD_drop_add]
            have hik : ans.length - 8 + k = i + k := by omega
            rw [hik, ← getD_append_lt ans (source_sep ++ cit) _ 'Z' (by omega),
              ← List.append_assoc, hpt k (by omega)]
            exact sep_take8 k hklen
        rw [endsWith]
        simp [hdropeq]
        omega
  · rcases Nat.eq_or_lt_of_le hiL with heq | hgt
    · exact Or.inl heq.symm
    · -- the occurrence starts strictly after the answer text
      rcases Nat.lt_or_ge i (ans.length + 9) with hmid | hright
      · -- starts inside the separator block
        rcases Nat.lt_or_ge (i - ans.length) 8 with hd | hd
        · -- shift between 1 and 7: impossible by separator self-overlap
          exfalso
          obtain ⟨k, hk9, hne⟩ := sep_right_overlap (i - ans.length) hd (by omega)
          apply hne
          rw [← hpt k (by omega)]
          have : i + k = ans.length + (i - ans.length + k) := by omega
          rw [this, haM _ (by omega)]
        · -- shift exactly 8: the citation starts with the marker
          right; right; right
          have hi8 : i = ans.length + 8 := by omega
          apply containsSub_of_occAt 0 marker_ne_nil
          apply occAt_of_getD 'Z'
          · rw [marker_length]
            omega
          · intro k hk
            rw [marker_length] at hk
            have h1 : (ans ++ source_sep ++ cit).getD (i + (k + 1)) 'Z'
                = source_sep.getD (k + 1) 'Z' := hpt (k + 1) (by omega)
            have h2 : i + (k + 1) = ans.length + 9 + k := by omega
            rw [h2, haR] at h1
            rw [Nat.zero_add, h1, sep_cons, List.getD_cons_succ]
      · -- fully inside the citation
        right; right; right
        apply containsSub_marker_of_occAt_sep (i - ans.length - 9)
        rw [occAt_iff]
        rw [occAt_iff] at h
        rw [List.drop_append_eq_append_drop,
          List.drop_eq_nil_of_le (by simp [sep_length]; omega)] at h
        simp only [List.nil_append] at h
        have : i - (ans ++ source_sep).length = i - ans.length - 9 := by
          simp [sep_length]
          omega
        rwa [this] at h

/-! Access into an assembled answer by region. -/

lemma getD_assembled_left (ans cit : Str) (m : Nat) (hm : m < ans.length) :
    (ans ++ source_sep ++ cit).getD m 'Z' = ans.getD m 'Z' := by
  rw [List.append_assoc, getD_append_lt _ _ _ _ hm]

lemma getD_assembled_mid (ans cit : Str) (m : Nat) (hm : m < 9) :
    (ans ++ source_sep ++ cit).getD (ans.length + m) 'Z' = source_sep.getD m 'Z' := by
  rw [List.append_assoc, getD_append_add,
    getD_append_lt _ _ _ _ (by rw [sep_length]; omega)]

lemma getD_assembled_right (ans cit : Str) (m : Nat) :
    (ans ++ source_sep ++ cit).getD (ans.length + 9 + m) 'Z' = cit.getD m 'Z' := by
  rw [show ans.length + 9 + m = ans.length + (9 + m) by omega, List.append_assoc,
    getD_append_add, show (9 : Nat) + m = source_sep.length + m by rw [sep_length],
    getD_append_add]

lemma sep_mid_ne_marker_head : ∀ d, 2 ≤ d → d < 9 →
    source_sep.getD d 'Z' ≠ source_marker.getD 0 'Z' := by
  decide

/-- When the citation does not contain the marker, no occurrence of the
marker in an assembled answer can start after the inserted one. -/
lemma occAt_marker_le (ans cit : Str) (i : Nat)
    (hcit : containsSub cit source_marker = false)
    (h : occAt (ans ++ source_sep ++ cit) source_marker i = true) :
    i ≤ ans.length + 1 := by
  by_contra hgt
  push_neg at hgt
  rcases Nat.lt_or_ge i (ans.length + 9) with hmid | hright
  · -- the occurrence would start strictly inside the separator block
    have hd : 2 ≤ i - ans.length ∧ i - ans.length < 9 := by omega
    apply sep_mid_ne_marker_head (i - ans.length) hd.1 hd.2
    have h0 : (ans ++ source_sep ++ cit).getD (i + 0) 'Z' = source_marker.getD 0 'Z' :=
      occAt_getD h 0 (by rw [marker_length]; omega) 'Z'
    rw [Nat.add_zero] at h0
    have h1 : (ans ++ source_sep ++ cit).getD (ans.length + (i - ans.length)) 'Z'
        = source_sep.getD (i - ans.length) 'Z' := getD_assembled_mid _ _ _ hd.2
    rw [show ans.length + (i - ans.length) = i by omega] at h1
    rw [← h0, h1]
  · -- the occurrence would sit fully inside the citation
    have hocc : occAt cit source_marker (i - ans.length - 9) = true := by
      rw [occAt_iff] at h ⊢
      rw [List.drop_append_eq_append_drop,
        List.drop_eq_nil_of_le (by simp [sep_length]; omega)] at h
      simp only [List.nil_append] at h
      have : i - (ans ++ source_sep).length = i - ans.length - 9 := by
        simp [sep_length]
        omega
      rwa [this] at h
    rw [containsSub_of_occAt _ marker_ne_nil hocc] at hcit
    exact absurd hcit (by decide)

/-- Position of the last `"SOURCE: "` in an assembled answer, when the
citation does not itself contain the marker. -/
lemma rfind_marker_assembled (ans cit : Str)
    (hcit : containsSub cit source_marker = false) :
    rfind (answer_with_citation ans cit) source_marker = some (ans.length + 1) := by
  rw [answer_with_citation]
  obtain ⟨j, hj, hge, hle, hocc⟩ :=
    rfind_spec marker_ne_nil (occAt_marker_at_len_succ ans cit)
  have hub : j ≤ ans.length + 1 := occAt_marker_le ans cit j hcit hocc
  have hjeq : j = ans.length + 1 := by omega
  rw [hj, hjeq]

lemma drop_assembled (ans cit : Str) :
    (answer_with_citation ans cit).drop (ans.length + 9) = cit := by
  rw [answer_with_citation,
    show ans.length + 9 = (ans ++ source_sep).length by simp [sep_length],
    List.drop_left]

lemma filter_range_eq {n : Nat} {p : Nat → Bool} (j : Nat) (hj : j < n)
    (hiff : ∀ i, p i = true ↔ i = j) : (List.range n).filter p = [j] := by
  induction n with
  | zero => omega
  | succ n ih =>
    rw [List.range_succ, List.filter_append]
    rcases Nat.lt_or_ge j n with hlt | hge
    · rw [ih hlt]
      have hpn : p n = false := by
        rcases hb : p n with _ | _
        · rfl
        · have := (hiff n).mp hb
          omega
      simp [hpn]
    · have hjn : j = n := by omega
      subst hjn
      have hpj : p j = true := (hiff j).mpr rfl
      have hfilter : (List.range j).filter p = [] := by
        rw [List.filter_eq_nil_iff]
        intro a ha
        rw [List.mem_range] at ha
        intro hpa
        have := (hiff a).mp hpa
        omega
      simp [hfilter, hpj]

/-- With no marker in the answer text, no dangling separator-prefix at
its end, and no marker in the citation, the separator occurs exactly
once in the assembled answer. -/
lemma countOcc_assembled (ans cit : Str)
    (h1 : containsSub ans source_marker = false)
    (h2 : endsWith ans ((" SOURCE:").toList) = false)
    (h3 : containsSub cit source_marker = false) :
    countOcc (answer_with_citation ans cit) source_sep = 1 := by
  have hiff : ∀ i, occAt (answer_with_citation ans cit) source_sep i = true ↔ i = ans.length := by
    intro i
    constructor
    · intro hocc
      rcases occAt_sep_cases ans cit i hocc with he | hc | hc | hc
      · exact he
      · rw [hc] at h1
        exact absurd h1 (by decide)
      · rw [hc] at h2
        exact absurd h2 (by decide)
      · rw [hc] at h3
        exact absurd h3 (by decide)
    · intro he
      rw [he]
      exact occAt_sep_at_len ans cit
  rw [countOcc, occs]
  rw [filter_range_eq (ans.length)
    (by rw [answer_with_citation]; simp [sep_length]; omega) hiff]
  rfl

/-! The text before the last separator in an assembled answer. -/

lemma default_length : default_answer.length = 16 := by decide

lemma default_space_positions : ∀ m, m < 16 →
    default_answer.getD m 'Z' = ' ' → m = 2 ∨ m = 9 := by
  decide

lemma default_no_S :
    default_answer.getD 3 'Z' ≠ 'S' ∧ default_answer.getD 10 'Z' ≠ 'S' := by
  decide

lemma rfind_sep_assembled_exists (ans cit : Str) :
    ∃ j, rfind (answer_with_citation ans cit) source_sep = some j
      ∧ ans.length ≤ j ∧ j ≤ (answer_with_citation ans cit).length := by
  rw [answer_with_citation]
  obtain ⟨j, hj, hge, hle, _⟩ := rfind_spec sep_ne_nil (occAt_sep_at_len ans cit)
  exact ⟨j, hj, hge, hle⟩

lemma containsSub_sep_assembled (ans cit : Str) :
    containsSub (answer_with_citation ans cit) source_sep = true := by
  rw [answer_with_citation]
  exact containsSub_of_occAt ans.length sep_ne_nil (occAt_sep_at_len ans cit)

/-- Whatever the citation, the text before the last separator of an
assembled answer is never the sentinel, provided the answer text is not
the sentinel itself. -/
lemma leading_assembled_ne_default (ans cit : Str) (h : ans ≠ default_answer) :
    leadingOfLast (answer_with_citation ans cit) source_sep ≠ default_answer := by
  obtain ⟨j, hj, hge, hle⟩ := rfind_sep_assembled_exists ans cit
  simp only [leadingOfLast, hj]
  intro htake
  have hlen := congrArg List.length htake
  rw [List.length_take, default_length, Nat.min_eq_left hle] at hlen
  rcases Nat.eq_or_lt_of_le hge with heq | hlt
  · apply h
    rw [← htake, ← heq, answer_with_citation, List.append_assoc, List.take_left]
  · have hpt : ∀ k, k < 16 →
        (answer_with_citation ans cit).getD k 'Z' = default_answer.getD k 'Z' := by
      intro k hk
      rw [← htake, getD_take_lt _ _ _ _ (by omega)]
    have hL : default_answer.getD ans.length 'Z' = ' ' := by
      rw [← hpt ans.length (by omega)]
      have hm := getD_assembled_mid ans cit 0 (by omega)
      rw [Nat.add_zero] at hm
      rw [answer_with_citation, hm]
      decide
    have hL29 := default_space_positions ans.length (by omega) hL
    have hS : default_answer.getD (ans.length + 1) 'Z' = 'S' := by
      rw [← hpt (ans.length + 1) (by rcases hL29 with h2 | h9 <;> omega)]
      have hm := getD_assembled_mid ans cit 1 (by omega)
      rw [answer_with_citation, hm]
      decide
    rcases hL29 with h2 | h9
    · rw [h2] at hS
      exact default_no_S.1 hS
    · rw [h9] at hS
      exact default_no_S.2 hS

/-- The text before the last separator of an assembled answer is
non-empty whenever the answer text is non-empty. -/
lemma leading_assembled_ne_nil (ans cit : Str) (h : ans ≠ []) :
    leadingOfLast (answer_with_citation ans cit) source_sep ≠ [] := by
  obtain ⟨j, hj, hge, hle⟩ := rfind_sep_assembled_exists ans cit
  simp only [leadingOfLast, hj]
  intro hnil
  have hlen := congrArg List.length hnil
  rw [List.length_take, Nat.min_eq_left hle] at hlen
  have hpos : 0 < ans.length := List.length_pos.mpr h
  simp at hlen
  omega

/-! Structure of the extraction loop output. -/

/-- Every answer returned by the extraction loop is an assembled
answer whose text component came from the completion service and is not
the sentinel. -/
lemma extract_loop_mem {oc : Str → Int → Str} {gc : Str → Except PyError Str}
    {rq : Str} {mt : Int} :
    ∀ {items : List Item} {answers : List Str} {a : Str},
      extract_answers_loop oc gc rq mt items = .ok answers → a ∈ answers →
      ∃ ans cit, a = answer_with_citation ans cit ∧ ans ≠ default_answer
        ∧ ∃ pr, ans = oc pr mt := by
  intro items
  induction items with
  | nil =>
    intro answers a h hm
    simp only [extract_answers_loop] at h
    injection h with h
    rw [← h] at hm
    simp at hm
  | cons item rest ih =>
    intro answers a h hm
    cases item with
    | str s =>
      simp [extract_answers_loop] at h
    | paper p =>
      simp only [extract_answers_loop] at h
      cases hc : paper_citation gc p with
      | error e =>
        simp [hc] at h
      | ok citation =>
        simp only [hc] at h
        cases hrest : extract_answers_loop oc gc rq mt rest with
        | error e =>
          simp [hrest] at h
        | ok restAnswers =>
          simp only [hrest] at h
          by_cases hd :
              oc (extract_answer_prompt rq (p.abstract.getD [])) mt = default_answer
          · rw [if_pos hd] at h
            injection h with h
            rw [← h] at hm
            exact ih hrest hm
          · rw [if_neg hd] at h
            injection h with h
            rw [← h] at hm
            rcases List.mem_cons.mp hm with heq | hmem
            · exact ⟨oc (extract_answer_prompt rq (p.abstract.getD [])) mt, citation,
                heq, hd, ⟨extract_answer_prompt rq (p.abstract.getD []), rfl⟩⟩
            · exact ih hrest hmem

/-- On success the extraction loop returns exactly the in-order
filter-map of the per-item emitted answers: surviving answers keep the
input order, discarded papers are simply absent. -/
lemma extract_loop_eq_filterMap {oc : Str → Int → Str} {gc : Str → Except PyError Str}
    {rq : Str} {mt : Int} :
    ∀ {items : List Item} {answers : List Str},
      extract_answers_loop oc gc rq mt items = .ok answers →
      answers = items.filterMap (emitted_answer oc gc rq mt) := by
  intro items
  induction items with
  | nil =>
    intro answers h
    simp only [extract_answers_loop] at h
    injection h with h
    simp [← h]
  | cons item rest ih =>
    intro answers h
    cases item with
    | str s =>
      simp [extract_answers_loop] at h
    | paper p =>
      simp only [extract_answers_loop] at h
      cases hc : paper_citation gc p with
      | error e =>
        simp [hc] at h
      | ok citation =>
        simp only [hc] at h
        cases hrest : extract_answers_loop oc gc rq mt rest with
        | error e =>
          simp [hrest] at h
        | ok restAnswers =>
          simp only [hrest] at h
          by_cases hd :
              oc (extract_answer_prompt rq (p.abstract.getD [])) mt = default_answer
          · rw [if_pos hd] at h
            injection h with h
            rw [List.filterMap_cons]
            simp only [emitted_answer, hc, hd, if_pos rfl]
            rw [← h]
            exact ih hrest
          · rw [if_neg hd] at h
            injection h with h
            rw [List.filterMap_cons]
            simp only [emitted_answer, hc, if_neg hd]
            rw [← h, ih hrest]

/-- With an always-succeeding citation resolver, the extraction loop
raises AttributeError as soon as it reaches the first plain string in
the item list, whatever papers precede it. -/
lemma extract_loop_str_error {oc : Str → Int → Str} {rq : Str} {mt : Int}
    (res0 : Str → Str) :
    ∀ (papers : List Paper) (m : Str) (rest : List Item),
      extract_answers_loop oc (fun d => .ok (res0 d)) rq mt
        (papers.map Item.paper ++ (Item.str m :: rest)) = .error .attributeError := by
  intro papers
  induction papers with
  | nil =>
    intro m rest
    simp [extract_answers_loop]
  | cons p ps ih =>
    intro m rest
    have hc : ∃ c, paper_citation (fun d => .ok (res0 d)) p = .ok c := by
      cases hd : p.doi <;> simp [paper_citation, hd]
    obtain ⟨c, hc⟩ := hc
    simp only [List.map_cons, List.cons_append, extract_answers_loop, hc]
    have ih2 := ih m rest
    rw [show List.map Item.paper ps ++ Item.str m :: rest
        = (List.map Item.paper ps).append (Item.str m :: rest) from rfl] at ih2
    rw [ih2]

lemma containsSub_iff_lastOcc (a pat : Str) (hp : pat ≠ []) :
    containsSub a pat = true ↔ ∃ j, lastOcc a pat = some j := by
  constructor
  · intro h
    rw [containsSub, List.any_eq_true] at h
    obtain ⟨i, _, hi⟩ := h
    obtain ⟨j, hj, _, _, _⟩ := rfind_spec hp (by simpa using hi)
    exact ⟨j, by rw [← rfind_eq_lastOcc]; exact hj⟩
  · rintro ⟨j, hj⟩
    rw [← rfind_eq_lastOcc] at hj
    exact containsSub_of_occAt j hp (rfindAux_occ hj)

lemma extract_single_paper (oc : Str → Int → Str) (gc : Str → Except PyError Str)
    (rq : Str) (mt : Int) (p : Paper) (c : Str)
    (hc : paper_citation gc p = .ok c) :
    extract_answers_from_papers oc gc [Item.paper p] rq mt =
      .ok (if oc (extract_answer_prompt rq (p.abstract.getD [])) mt = default_answer
        then []
        else [answer_with_citation (oc (extract_answer_prompt rq (p.abstract.getD [])) mt) c]) := by
  simp only [extract_answers_from_papers, extract_answers_loop, hc]
  by_cases hd : oc (extract_answer_prompt rq (p.abstract.getD [])) mt = default_answer
  · rw [if_pos hd, if_pos hd]
  · rw [if_neg hd, if_neg hd]

/-! Claim theorems. -/

/-- Claim C1: the Citation Assembler maps each answer containing the
marker `"SOURCE: "` to the text after the last occurrence of that
marker, skips answers lacking the marker, preserves order, returns
exactly the expected citations on the documented example, and never
returns more citations than answers (so the empty input yields the
empty list). -/
theorem claim_C1_citation_assembler :
    (∀ answers : List Str, extract_citations answers =
      answers.filterMap (fun a =>
        (lastOcc a source_marker).map (fun j => a.drop (j + source_marker.length))))
    ∧ (∀ a : Str, containsSub a source_marker = true ↔ ∃ j, lastOcc a source_marker = some j)
    ∧ extract_citations
        [("AI improves diagnosis. SOURCE: Smith (2020)").toList,
         ("AI raises cost concerns. SOURCE: Jones (2021)").toList]
      = [("Smith (2020)").toList, ("Jones (2021)").toList]
    ∧ (∀ answers : List Str, (extract_citations answers).length ≤ answers.length)
    ∧ extract_citations [] = [] := by
  refine ⟨?_, ?_, by decide, ?_, rfl⟩
  · intro answers
    rw [extract_citations]
    congr 1
    funext a
    rw [rfind_eq_lastOcc]
    rcases lastOcc a source_marker with _ | j <;> rfl
  · intro a
    exact containsSub_iff_lastOcc a source_marker marker_ne_nil
  · intro answers
    rw [extract_citations]
    exact List.length_filterMap_le _ _

/-- Claim C5: the output-token budget computed by the Review
Synthesizer and passed to the completion call equals
`max(0, 4080 - prompt_token_count)`; in particular a prompt measured at
4100 tokens yields a budget of exactly 0, and the budget is never
negative. -/
theorem claim_C5_token_budget :
    (∀ (oc : Str → Int → Str) (ct : Str → Nat) (answers : List Str) (rq : Str),
      combine_answers oc ct answers rq =
        oc (literature_review_prompt rq (List.intercalate (("\n\n").toList) answers))
          (combine_max_tokens (ct (literature_review_prompt rq
            (List.intercalate (("\n\n").toList) answers)))))
    ∧ (∀ n : Nat, combine_max_tokens n = max 0 (4080 - (n : Int)))
    ∧ combine_max_tokens 4100 = 0
    ∧ (∀ n : Nat, 0 ≤ combine_max_tokens n) := by
  refine ⟨fun oc ct answers rq => rfl, ?_, by decide, ?_⟩
  · intro n
    rw [combine_max_tokens, remaining_tokens]
    exact max_comm _ _
  · intro n
    rw [combine_max_tokens]
    exact le_max_right _ _

/-- Claim C9 counterexample: with a tokenizer oracle measuring the
prompt at 4100 tokens, `combine_answers` raises nothing and silently
issues the completion call with a zero max-token budget, returning the
result of that call (the completion oracle here answers `"ZERO"`
exactly when it receives a zero budget). -/
theorem claim_C9_counterexample :
    combine_answers (fun _ t => if t = 0 then ("ZERO").toList else ("NONZERO").toList)
      (fun _ => 4100) [] [] = ("ZERO").toList := by
  rfl

/-- Claim C9 amended: whenever the prompt token count reaches or
exceeds 4080, the computed budget is clamped to zero and the completion
call is still issued, with `max_tokens = 0`; no explicit error condition
is surfaced to the caller. -/
theorem claim_C9_amended (oc : Str → Int → Str) (ct : Str → Nat)
    (answers : List Str) (rq : Str)
    (h : 4080 ≤ ct (literature_review_prompt rq (List.intercalate (("\n\n").toList) answers))) :
    combine_answers oc ct answers rq =
      oc (literature_review_prompt rq (List.intercalate (("\n\n").toList) answers)) 0 := by
  simp only [combine_answers]
  congr 1
  rw [combine_max_tokens, remaining_tokens]
  apply max_eq_right
  omega

/-- Witness for the amended C9 at a concrete tokenizer stuck at 4100. -/
theorem claim_C9_amended_witness :
    4080 ≤ (fun _ : Str => 4100)
      (literature_review_prompt [] (List.intercalate (("\n\n").toList) []))
    ∧ combine_answers (fun _ _ => ([] : Str)) (fun _ => 4100) [] [] =
      (fun _ _ => ([] : Str))
        (literature_review_prompt [] (List.intercalate (("\n\n").toList) [])) 0 :=
  ⟨by decide, claim_C9_amended (fun _ _ => ([] : Str)) (fun _ => 4100) [] [] (by decide)⟩

/-- Claim C2: for every paper, the extractor produces no answer when
the completion result equals the sentinel exactly, and otherwise emits
exactly the completion result, followed by `" SOURCE: "`, followed by
the citation; and no emitted answer has the sentinel as the text before
its last `" SOURCE: "`. -/
theorem claim_C2_answer_extractor (oc : Str → Int → Str)
    (gc : Str → Except PyError Str) (rq : Str) (mt : Int) (p : Paper) (c : Str)
    (hc : paper_citation gc p = .ok c) :
    extract_answers_from_papers oc gc [Item.paper p] rq mt =
      .ok (if oc (extract_answer_prompt rq (p.abstract.getD [])) mt = default_answer
        then []
        else [oc (extract_answer_prompt rq (p.abstract.getD [])) mt ++ source_sep ++ c])
    ∧ (∀ (items : List Item) (answers : List Str) (a : Str),
        extract_answers_from_papers oc gc items rq mt = .ok answers → a ∈ answers →
        leadingOfLast a source_sep ≠ default_answer) := by
  constructor
  · exact extract_single_paper oc gc rq mt p c hc
  · intro items answers a h hm
    obtain ⟨ans, cit, heq, hne, _⟩ := extract_loop_mem h hm
    rw [heq]
    exact leading_assembled_ne_default ans cit hne

/-- Witness for C2 on a concrete DOI-less paper and a completion oracle
answering `"A"`. -/
theorem claim_C2_witness :
    paper_citation (fun d => (Except.ok d : Except PyError Str))
      (Paper.mk none none (("u").toList) none) = Except.ok (("u").toList)
    ∧ extract_answers_from_papers (fun _ _ => ("A").toList) (fun d => Except.ok d)
        [Item.paper (Paper.mk none none (("u").toList) none)] [] 150 =
      Except.ok (if ("A").toList = default_answer then ([] : List Str)
        else [("A").toList ++ source_sep ++ ("u").toList]) :=
  ⟨rfl, (claim_C2_answer_extractor (fun _ _ => ("A").toList) (fun d => Except.ok d)
    [] 150 (Paper.mk none none (("u").toList) none) (("u").toList) rfl).1⟩

/-- Claim C6 counterexample: a completion oracle may return the empty
string (which differs from the sentinel), and then the emitted answer
is `" SOURCE: u"`, whose text before the last `" SOURCE: "` is empty:
the claim fails for the empty completion result. -/
theorem claim_C6_counterexample :
    extract_answers_from_papers (fun _ _ => ([] : Str)) (fun d => Except.ok d)
      [Item.paper (Paper.mk none none (("u").toList) none)] [] 150
      = Except.ok [(" SOURCE: u").toList]
    ∧ leadingOfLast ((" SOURCE: u").toList) source_sep = [] := by
  exact ⟨rfl, by decide⟩

/-- Claim C6 amended: for every answer emitted by the extractor under a
completion oracle that never returns the empty string, the substring
`" SOURCE: "` occurs at least once, and the text preceding its last
occurrence is non-empty. -/
theorem claim_C6_amended (oc : Str → Int → Str) (gc : Str → Except PyError Str)
    (rq : Str) (mt : Int) (items : List Item) (answers : List Str) (a : Str)
    (hoc : ∀ pr, oc pr mt ≠ [])
    (h : extract_answers_from_papers oc gc items rq mt = .ok answers) (hm : a ∈ answers) :
    containsSub a source_sep = true ∧ leadingOfLast a source_sep ≠ [] := by
  obtain ⟨ans, cit, heq, _, ⟨pr, hpr⟩⟩ := extract_loop_mem h hm
  rw [heq]
  exact ⟨containsSub_sep_assembled ans cit,
    leading_assembled_ne_nil ans cit (by rw [hpr]; exact hoc pr)⟩

/-- Witness for the amended C6 on a concrete extraction run. -/
theorem claim_C6_amended_witness :
    containsSub (("A SOURCE: u").toList) source_sep = true
    ∧ leadingOfLast (("A SOURCE: u").toList) source_sep ≠ [] :=
  claim_C6_amended (fun _ _ => ("A").toList) (fun d => Except.ok d) [] 150
    [Item.paper (Paper.mk none none (("u").toList) none)] [(("A SOURCE: u").toList)]
    (("A SOURCE: u").toList) (fun _ => List.cons_ne_nil _ _) rfl (by decide)

/-- Claim C7: on success the extractor returns exactly the in-order
filter-map of the per-paper emitted answers, so the output is an
order-preserving subsequence of the input with discarded papers simply
absent. -/
theorem claim_C7_order_preservation (oc : Str → Int → Str)
    (gc : Str → Except PyError Str) (rq : Str) (mt : Int)
    (items : List Item) (answers : List Str)
    (h : extract_answers_from_papers oc gc items rq mt = .ok answers) :
    answers = items.filterMap (emitted_answer oc gc rq mt) :=
  extract_loop_eq_filterMap h

/-- Witness for C7 on two concrete papers. -/
theorem claim_C7_witness :
    extract_answers_from_papers (fun _ _ => ("A").toList) (fun d => Except.ok d)
      [Item.paper (Paper.mk none none (("u").toList) none),
       Item.paper (Paper.mk none none (("v").toList) none)] [] 150
      = Except.ok [("A SOURCE: u").toList, ("A SOURCE: v").toList]
    ∧ [("A SOURCE: u").toList, ("A SOURCE: v").toList] =
      ([Item.paper (Paper.mk none none (("u").toList) none),
        Item.paper (Paper.mk none none (("v").toList) none)]).filterMap
        (emitted_answer (fun _ _ => ("A").toList) (fun d => Except.ok d) [] 150) :=
  ⟨rfl, claim_C7_order_preservation (fun _ _ => ("A").toList) (fun d => Except.ok d)
    [] 150
    [Item.paper (Paper.mk none none (("u").toList) none),
     Item.paper (Paper.mk none none (("v").toList) none)]
    [("A SOURCE: u").toList, ("A SOURCE: v").toList] rfl⟩

/-- Claim C8 counterexample: when the citation itself contains the
marker (here the DOI-less fallback URL `"B SOURCE: C"`), the emitted
answer contains `" SOURCE: "` twice, not exactly once. -/
theorem claim_C8_counterexample :
    extract_answers_from_papers (fun _ _ => ("A").toList) (fun d => Except.ok d)
      [Item.paper (Paper.mk none none (("B SOURCE: C").toList) none)] [] 150
      = Except.ok [("A SOURCE: B SOURCE: C").toList]
    ∧ countOcc (("A SOURCE: B SOURCE: C").toList) source_sep = 2 := by
  exact ⟨rfl, by decide⟩

/-- Claim C8 amended: provided the completion result does not contain
`"SOURCE: "` and does not end with `" SOURCE:"`, and the citation does
not contain `"SOURCE: "`, the separator `" SOURCE: "` occurs exactly
once in the assembled answer; and whenever the citation does not
contain `"SOURCE: "`, the citation occupies exactly everything after
the last occurrence of `"SOURCE: "`. -/
theorem claim_C8_amended (ans cit : Str)
    (h1 : containsSub ans source_marker = false)
    (h2 : endsWith ans ((" SOURCE:").toList) = false)
    (h3 : containsSub cit source_marker = false) :
    countOcc (answer_with_citation ans cit) source_sep = 1
    ∧ rfind (answer_with_citation ans cit) source_marker = some (ans.length + 1)
    ∧ (answer_with_citation ans cit).drop (ans.length + 1 + source_marker.length) = cit := by
  refine ⟨countOcc_assembled ans cit h1 h2 h3, rfind_marker_assembled ans cit h3, ?_⟩
  rw [marker_length, show ans.length + 1 + 8 = ans.length + 9 by omega]
  exact drop_assembled ans cit

/-- Witness for the amended C8 on concrete marker-free strings. -/
theorem claim_C8_amended_witness :
    containsSub (("A").toList) source_marker = false
    ∧ endsWith (("A").toList) ((" SOURCE:").toList) = false
    ∧ containsSub (("C").toList) source_marker = false
    ∧ (countOcc (answer_with_citation (("A").toList) (("C").toList)) source_sep = 1
      ∧ rfind (answer_with_citation (("A").toList) (("C").toList)) source_marker
          = some ((("A").toList).length + 1)
      ∧ (answer_with_citation (("A").toList) (("C").toList)).drop
          ((("A").toList).length + 1 + source_marker.length) = ("C").toList) :=
  ⟨by decide, by decide, by decide,
    claim_C8_amended (("A").toList) (("C").toList) (by decide) (by decide) (by decide)⟩

/-- Claim C3 counterexample: on the JSON body `{}` (an object with no
`citations` key) the resolver raises a KeyError instead of returning:
only the non-JSON `ValueError` path is caught by the source. -/
theorem claim_C3_counterexample :
    get_citation_by_doi
      (fun _ => HttpResponse.mk (("\x7b\x7d").toList) (some (JVal.jobj [])))
      (("e").toList) (("d").toList) = Except.error PyError.keyError := by
  rfl

/-- Claim C3 amended: when the body is not JSON the resolver returns
the raw response text verbatim without raising; when the body parses as
JSON and holds a `citations` array whose first entry has a `citation`
field, the resolver returns that field; but when the `citations` lookup
fails on a JSON body, the error propagates to the caller. -/
theorem claim_C3_amended (http : Str → HttpResponse) (email doi : Str) :
    ((http (citeas_url doi email)).json = none →
      get_citation_by_doi http email doi
        = .ok (.jstr (http (citeas_url doi email)).text))
    ∧ (∀ (data v w : JVal) (xs : List JVal),
        (http (citeas_url doi email)).json = some data →
        jGetKey data (("citations").toList) = .ok (JVal.jarr (v :: xs)) →
        jGetKey v (("citation").toList) = .ok w →
        get_citation_by_doi http email doi = .ok w)
    ∧ (∀ (data : JVal) (e : PyError),
        (http (citeas_url doi email)).json = some data →
        jGetKey data (("citations").toList) = .error e →
        get_citation_by_doi http email doi = .error e) := by
  refine ⟨?_, ?_, ?_⟩
  · intro hj
    simp only [get_citation_by_doi, hj]
  · intro data v w xs hj h1 h2
    simp only [get_citation_by_doi, hj]
    rw [h1]
    show jGetKey v (("citation").toList) = Except.ok w
    exact h2
  · intro data e hj h1
    simp only [get_citation_by_doi, hj]
    rw [h1]
    rfl

/-- Witness for the amended C3 on the documented well-formed response. -/
theorem claim_C3_amended_witness :
    ((fun _ : Str => HttpResponse.mk (("ignored").toList)
        (some (JVal.jobj [((("citations").toList),
          JVal.jarr [JVal.jobj [((("citation").toList),
            JVal.jstr (("Liu et al. (2020)").toList))]])])))
      (citeas_url (("d").toList) (("e").toList))).json
      = some (JVal.jobj [((("citations").toList),
          JVal.jarr [JVal.jobj [((("citation").toList),
            JVal.jstr (("Liu et al. (2020)").toList))]])])
    ∧ get_citation_by_doi
        (fun _ => HttpResponse.mk (("ignored").toList)
          (some (JVal.jobj [((("citations").toList),
            JVal.jarr [JVal.jobj [((("citation").toList),
              JVal.jstr (("Liu et al. (2020)").toList))]])])))
        (("e").toList) (("d").toList)
      = .ok (.jstr (("Liu et al. (2020)").toList)) :=
  ⟨rfl,
    (claim_C3_amended
      (fun _ => HttpResponse.mk (("ignored").toList)
        (some (JVal.jobj [((("citations").toList),
          JVal.jarr [JVal.jobj [((("citation").toList),
            JVal.jstr (("Liu et al. (2020)").toList))]])])))
      (("e").toList) (("d").toList)).2.1
      (JVal.jobj [((("citations").toList),
        JVal.jarr [JVal.jobj [((("citation").toList),
          JVal.jstr (("Liu et al. (2020)").toList))]])])
      (JVal.jobj [((("citation").toList), JVal.jstr (("Liu et al. (2020)").toList))])
      (JVal.jstr (("Liu et al. (2020)").toList)) [] rfl rfl rfl⟩

/-- Claim C4: the orchestrator returns the synthesized narrative, then
the literal `"\n\nReferences:\n"`, then the 1-indexed numbered list of
the citations assembled from the same answers, then the verbatim
trailing marker `"resultEnd"`; with zero extracted answers the
reference section is empty and the body is the synthesizer output for
the empty findings set. -/
theorem claim_C4_orchestrator (oc : Str → Int → Str)
    (gc : Str → Except PyError Str) (ct : Str → Nat) (rq : Str)
    (top_papers manualAnswers : List Item) (answers : List Str)
    (h : extract_answers_from_papers oc gc (top_papers ++ manualAnswers) rq 150
      = .ok answers) :
    literature_review oc gc ct rq top_papers manualAnswers =
      .ok (combine_answers oc ct answers rq ++ ("\n\nReferences:\n").toList
        ++ references_list (extract_citations answers) ++ ("resultEnd").toList)
    ∧ references_list (extract_citations ([] : List Str)) = [] := by
  refine ⟨?_, rfl⟩
  simp only [literature_review, h]

/-- Witness for C4 on the empty paper list. -/
theorem claim_C4_witness :
    extract_answers_from_papers (fun _ _ => ([] : Str)) (fun d => Except.ok d)
      (([] : List Item) ++ ([] : List Item)) [] 150 = Except.ok ([] : List Str)
    ∧ (literature_review (fun _ _ => ([] : Str)) (fun d => Except.ok d) (fun _ => 0)
        [] [] [] =
      .ok (combine_answers (fun _ _ => ([] : Str)) (fun _ => 0) [] []
        ++ ("\n\nReferences:\n").toList
        ++ references_list (extract_citations []) ++ ("resultEnd").toList)
      ∧ references_list (extract_citations ([] : List Str)) = []) :=
  ⟨rfl, claim_C4_orchestrator (fun _ _ => ([] : Str)) (fun d => Except.ok d)
    (fun _ => 0) [] [] [] [] rfl⟩

/-- Claim C10: with any non-empty list of manually supplied answer
strings, the orchestrator concatenates them onto the papers, the
extraction step hits `.get` on a plain string, and the whole call
raises AttributeError before producing any output (here with a
citation resolver that always succeeds, isolating the failure to the
string elements). -/
theorem claim_C10_manual_answers_raise (oc : Str → Int → Str) (res0 : Str → Str)
    (ct : Str → Nat) (rq : Str) (papers : List Paper) (manuals : List Str)
    (h : manuals ≠ []) :
    literature_review oc (fun d => .ok (res0 d)) ct rq
      (papers.map Item.paper) (manuals.map Item.str) = .error .attributeError := by
  cases manuals with
  | nil => exact absurd rfl h
  | cons m ms =>
    have he : extract_answers_loop oc (fun d => .ok (res0 d)) rq 150
        (papers.map Item.paper ++ (Item.str m :: List.map Item.str ms))
        = .error .attributeError :=
      extract_loop_str_error res0 papers m (List.map Item.str ms)
    simp only [literature_review, extract_answers_from_papers, List.map_cons, he]

/-- Witness for C10 with one manual answer and no papers. -/
theorem claim_C10_witness :
    ([("x").toList] : List Str) ≠ []
    ∧ literature_review (fun _ _ => ([] : Str))
        (fun d => Except.ok ((fun s : Str => s) d)) (fun _ => 0) []
        (([] : List Paper).map Item.paper) ([("x").toList].map Item.str)
      = .error .attributeError :=
  ⟨by decide, claim_C10_manual_answers_raise (fun _ _ => ([] : Str)) (fun s => s)
    (fun _ => 0) [] [] [("x").toList] (by decide)⟩
